import Mathlib

/-!
Verification of the static file server in this repository.

The server (Node.js, `http.createServer`) maps a request URL to a filesystem
path by `path.join` of `__dirname` with `req.url` (or with `index.html`
when `req.url` is the bare slash),
resolves a content type from the lowercased extension via a fixed table with
`application/octet-stream` as default, reads the file, and writes exactly one
response: 200 with the file bytes, 404 with a fixed HTML fragment when the
read fails with `ENOENT`, or 500 with `Server Error: <code>` otherwise.

We embed the handler shallowly: the filesystem is a function from paths to
read results (success with a byte list, or failure with a POSIX error-code
string such as `ENOENT`, `EISDIR`, `EACCES`); the Node `path.join`,
`path.normalize` (posix) and `path.extname` are modelled faithfully on
character lists.
-/

/-- Split a character list into path segments at every `/`; `cur` is the
reversed current segment. Mirrors scanning a posix path for separators. -/
def splitSegsAux (cur : List Char) : List Char → List String
  | [] => [String.mk cur.reverse]
  | c :: cs =>
    if c = '/' then String.mk cur.reverse :: splitSegsAux [] cs
    else splitSegsAux (c :: cur) cs

/-- Segments of a path, split at `/` (empty segments preserved). -/
def splitSegs (cs : List Char) : List String :=
  splitSegsAux [] cs

/-- One step of the Node function `normalizeString`: skip empty and `.` segments, let
`..` pop the previous segment (kept, or dropped at the root, according to
`allow`, which is true exactly for relative paths), push anything else.
The accumulator holds the output segments in reverse. -/
def normStep (allow : Bool) (acc : List String) (seg : String) : List String :=
  if seg = "" ∨ seg = "." then acc
  else if seg = ".." then
    match acc with
    | [] => if allow then [".."] else []
    | top :: rest => if top = ".." then (if allow then ".." :: acc else acc) else rest
  else seg :: acc

/-- Normalized segment list of a path (Node `normalizeString`). -/
def normSegs (allow : Bool) (l : List String) : List String :=
  (l.foldl (normStep allow) []).reverse

/-- Reassemble a normalized path from its absoluteness flag, trailing-slash
flag and segment list, as Node `path.posix.normalize` does after
`normalizeString`. -/
def renderPath (isAbs trailing : Bool) (segs : List String) : String :=
  let body := String.intercalate "/" segs
  if body = "" then
    if isAbs then "/" else if trailing then "./" else "."
  else
    (if isAbs then "/" else "") ++ body ++ (if trailing then "/" else "")

/-- Node `path.posix.normalize` on a character list. -/
def pathNormalizeChars (cs : List Char) : String :=
  if cs = [] then "."
  else
    let isAbs : Bool := cs.head? == some '/'
    let trailing : Bool := cs.getLast? == some '/'
    renderPath isAbs trailing (normSegs (!isAbs) (splitSegs cs))

/-- Node `path.posix.normalize`. -/
def pathNormalize (p : String) : String :=
  pathNormalizeChars p.toList

/-- Node `path.posix.join` for two arguments: empty arguments are skipped,
the rest are joined with `/` and the result is normalized; with no
non-empty argument the result is `.`. -/
def pathJoin (a b : String) : String :=
  if a = "" then (if b = "" then "." else pathNormalize b)
  else if b = "" then pathNormalize a
  else pathNormalize (a ++ "/" ++ b)

/-- Index (from the front) of the last `.` in a character list, if any. -/
def lastDotIdx (cs : List Char) : Option Nat :=
  match cs.reverse.findIdx? (fun c => c = '.') with
  | none => none
  | some j => some (cs.length - 1 - j)

/-- Node `path.posix.extname`: trailing separators are ignored, the
extension is the suffix of the last path component from its last `.`,
and it is empty when there is no dot, the dot is the leading character of
the component, or the component is exactly `..`. -/
def extname (p : String) : String :=
  let stripped := (p.toList.reverse.dropWhile (fun c => c = '/')).reverse
  let base := (splitSegs stripped).getLastD ""
  if base = ".." then ""
  else
    match lastDotIdx base.toList with
    | none => ""
    | some 0 => ""
    | some i => base.drop i

/-- ASCII lowercasing of one character, as `String.prototype.toLowerCase`
acts on the ASCII range (the only range file extensions here use). -/
def toLowerChar (c : Char) : Char :=
  if 65 ≤ c.toNat ∧ c.toNat ≤ 90 then Char.ofNat (c.toNat + 32) else c

/-- JavaScript `toLowerCase`, modelled characterwise on the ASCII range. -/
def strToLower (s : String) : String :=
  String.mk (s.toList.map toLowerChar)

/-- The fixed extension-to-content-type table from the source
(the object literal `mimeTypes` mapping `.html`, `.css`, `.js` and
`.png` to their types). -/
def mimeTypes : List (String × String) :=
  [(".html", "text/html"), (".css", "text/css"),
   (".js", "text/javascript"), (".png", "image/png")]

/-- JavaScript property lookup with falsy default:
`mimeTypes[extName]` with the default `application/octet-stream` taken
when the property is absent (the `||` of the source). -/
def lookupMime (e : String) : String :=
  match mimeTypes.find? (fun kv => e == kv.fst) with
  | some kv => kv.snd
  | none => "application/octet-stream"

/-- Content type of a resolved path, from the source:
`String(path.extname(filePath)).toLowerCase()` then table lookup. -/
def contentTypeOf (fp : String) : String :=
  lookupMime (strToLower (extname fp))

/-- The resolved filesystem path, from the source: `path.join` of
`__dirname` with `req.url`, or with `index.html` when `req.url` is the
bare slash. -/
def filePath (dirname url : String) : String :=
  pathJoin dirname (if url = "/" then "index.html" else url)

/-- Result of `fs.readFile`: the file bytes, or the error code string
(`err.code`) of the failure, e.g. `ENOENT` (no such file), `EISDIR`
(path is a directory), `EACCES` (permission denied). -/
inductive ReadResult where
  | ok : List Nat → ReadResult
  | error : String → ReadResult
deriving DecidableEq

/-- The filesystem as seen through `fs.readFile`, one read result per path. -/
def Fs := String → ReadResult

/-- Response body: raw file bytes passed through unchanged (the `"utf-8"`
argument of `res.end(content, "utf-8")` is ignored for Buffers), or a
string body for the error pages. -/
inductive Body where
  | bytes : List Nat → Body
  | text : String → Body
deriving DecidableEq

/-- An HTTP response as the handler writes it: the status passed to
`res.writeHead`, the header list passed alongside it (Node adds no
`Content-Type` on its own), and the body passed to `res.end`. -/
structure Response where
  status : Nat
  headers : List (String × String)
  body : Body
deriving DecidableEq

/-- An incoming HTTP request: method and raw URL (`req.url`, which includes
any query string). -/
structure Request where
  method : String
  url : String

/-- The `fs.readFile` callback: 404 with the fixed HTML fragment when the
error code is `ENOENT`, 500 with `Server Error: <code>` (and no headers)
for any other error, 200 with the resolved content type and the file bytes
on success. -/
def respond (contentType : String) : ReadResult → Response
  | .error code =>
    if code = "ENOENT" then
      { status := 404, headers := [("Content-type", "text/html")],
        body := .text "<h1>404: File not found</h1>" }
    else
      { status := 500, headers := [], body := .text ("Server Error: " ++ code) }
  | .ok content =>
    { status := 200, headers := [("Content-type", contentType)],
      body := .bytes content }

/-- The request handler of `http.createServer`: resolve the path, resolve
the content type, read, respond. Only `req.url` is consulted. -/
def handle (fsys : Fs) (dirname : String) (req : Request) : Response :=
  let fp := filePath dirname req.url
  respond (contentTypeOf fp) (fsys fp)

/-- The value of the `Content-Type` header of a response, if present
(header names compare case-insensitively in HTTP). -/
def contentTypeHeader (r : Response) : Option String :=
  match r.headers.find? (fun h => strToLower h.fst == "content-type") with
  | some h => some h.snd
  | none => none

/-- Terminal outcome classes of a request, as the state machine of the spec
names them: `Served(200)`, `NotFound(404)`, `ServerError(500)` and the
traversal `Rejected` (a 400/403-class status). -/
inductive Outcome where
  | served
  | notFound
  | serverError
  | rejected
deriving DecidableEq

/-- Membership of a response in one of the four terminal outcome classes. -/
def outcomeMatches (r : Response) : Outcome → Prop
  | .served => r.status = 200
  | .notFound => r.status = 404
  | .serverError => r.status = 500
  | .rejected => r.status = 400 ∨ r.status = 403

/-- MIME lookup written from the words of the spec, for comparison: the four
table entries, with `application/octet-stream` for any other extension. -/
def specMimeLookup (e : String) : String :=
  if e = ".html" then "text/html"
  else if e = ".css" then "text/css"
  else if e = ".js" then "text/javascript"
  else if e = ".png" then "image/png"
  else "application/octet-stream"

/-- Path resolution written from the words of the spec, for comparison: `/`
becomes the default document `index.html` joined to the root; any other
URL path is joined to the root, treated as relative to it. -/
def resolvePathSpec (root url : String) : String :=
  if url = "/" then pathJoin root "index.html" else pathJoin root url

/-- Containment of one path in another, stated as a textual prefix test on
the character lists. -/
def strIsPrefixOf (p s : String) : Bool :=
  p.toList.isPrefixOf s.toList

lemma lookupMime_eq_spec (e : String) : lookupMime e = specMimeLookup e := by
  by_cases h1 : e = ".html"
  · subst h1; decide
  by_cases h2 : e = ".css"
  · subst h2; decide
  by_cases h3 : e = ".js"
  · subst h3; decide
  by_cases h4 : e = ".png"
  · subst h4; decide
  have e1 : (e == ".html") = false := beq_eq_false_iff_ne.mpr h1
  have e2 : (e == ".css") = false := beq_eq_false_iff_ne.mpr h2
  have e3 : (e == ".js") = false := beq_eq_false_iff_ne.mpr h3
  have e4 : (e == ".png") = false := beq_eq_false_iff_ne.mpr h4
  unfold lookupMime specMimeLookup mimeTypes
  simp [List.find?, e1, e2, e3, e4, h1, h2, h3, h4]

/-- C4: MIME resolution is a total function over all paths: it extracts the
extension, lowercases it, looks it up in the fixed four-entry table, and
yields `application/octet-stream` for any unknown or missing extension. -/
theorem c4_mime_total_table (p : String) :
    contentTypeOf p = specMimeLookup (strToLower (extname p)) := by
  unfold contentTypeOf
  exact lookupMime_eq_spec _

/-- C5: path resolution maps `/` to the root joined with the default
document `index.html`, and any other URL path to the root joined with
that path. -/
theorem c5_path_resolution (root url : String) :
    filePath root url = resolvePathSpec root url := by
  unfold filePath resolvePathSpec
  by_cases h : url = "/" <;> simp [h]

/-- C9: the HTTP method never influences the outcome; two requests with
the same URL and different methods receive identical responses. -/
theorem c9_method_never_consulted (fsys : Fs) (dirname m m2 u : String) :
    handle fsys dirname { method := m, url := u } =
    handle fsys dirname { method := m2, url := u } := rfl

/-- C10: the raw URL, query string included, is joined verbatim into the
filesystem path: `/index.html?x=1` resolves to a path still carrying
`?x=1`, distinct from the path `/index.html` resolves to. -/
theorem c10_query_string_joined_verbatim :
    filePath "/app" "/index.html?x=1" = "/app/index.html?x=1"
    ∧ filePath "/app" "/index.html" = "/app/index.html"
    ∧ filePath "/app" "/index.html?x=1" ≠ filePath "/app" "/index.html" :=
  ⟨rfl, rfl, by decide⟩

/-- C1: the code performs no traversal containment check: with root
`/srv/www`, the request URL `/../secret.html` resolves to
`/srv/secret.html`, which lies outside the root, and when such a file
exists the server answers 200 with its bytes instead of any
400/403-class rejection. -/
theorem c1_traversal_escapes_root :
    filePath "/srv/www" "/../secret.html" = "/srv/secret.html"
    ∧ strIsPrefixOf "/srv/www/" (filePath "/srv/www" "/../secret.html") = false
    ∧ handle
        (fun p => if p = "/srv/secret.html" then ReadResult.ok [42]
                  else ReadResult.error "ENOENT")
        "/srv/www" { method := "GET", url := "/../secret.html" } =
      { status := 200, headers := [("Content-type", "text/html")],
        body := Body.bytes [42] } :=
  ⟨rfl, by decide, by decide⟩

lemma handle_eq_respond (fsys : Fs) (dirname : String) (req : Request) :
    handle fsys dirname req =
      respond (contentTypeOf (filePath dirname req.url))
        (fsys (filePath dirname req.url)) := rfl

/-- C3: whenever the read of the resolved path succeeds, the response has
status 200, a `Content-Type` header equal to the resolved MIME type, and
the bytes of the file, unchanged, as body. -/
theorem c3_success_serves_bytes (fsys : Fs) (dirname : String) (req : Request)
    (content : List Nat)
    (h : fsys (filePath dirname req.url) = ReadResult.ok content) :
    (handle fsys dirname req).status = 200
    ∧ contentTypeHeader (handle fsys dirname req) =
        some (contentTypeOf (filePath dirname req.url))
    ∧ (handle fsys dirname req).body = Body.bytes content := by
  rw [handle_eq_respond, h]
  exact ⟨rfl, rfl, rfl⟩

/-- Witness for C3: a concrete filesystem whose every read returns the
bytes `[104, 105]`, a root `/app` and the request `GET /a.css`. -/
theorem c3_success_serves_bytes_witness :
    (handle (fun _ => ReadResult.ok [104, 105]) "/app"
        { method := "GET", url := "/a.css" }).status = 200
    ∧ contentTypeHeader (handle (fun _ => ReadResult.ok [104, 105]) "/app"
        { method := "GET", url := "/a.css" }) =
        some (contentTypeOf (filePath "/app" "/a.css"))
    ∧ (handle (fun _ => ReadResult.ok [104, 105]) "/app"
        { method := "GET", url := "/a.css" }).body = Body.bytes [104, 105] :=
  c3_success_serves_bytes (fun _ => ReadResult.ok [104, 105]) "/app"
    { method := "GET", url := "/a.css" } [104, 105] rfl

/-- C2, counterexample: a resolved path that exists but is unreadable as a
regular file fails with the POSIX code `EACCES` (permission denied), and
the handler then answers 500, not the 404 the claim requires (the 404
branch fires only on the `ENOENT` code). -/
theorem c2_counterexample_unreadable_is_500 :
    (handle (fun _ => ReadResult.error "EACCES") "/app"
        { method := "GET", url := "/locked.html" }).status = 500
    ∧ ¬ (handle (fun _ => ReadResult.error "EACCES") "/app"
        { method := "GET", url := "/locked.html" }).status = 404 :=
  ⟨rfl, by decide⟩

/-- C2, amended: exactly the reads failing with `ENOENT` (nonexistent
path) produce a response with status 404, header `Content-Type:
text/html` and the fixed not-found fragment as body; a read that fails
because the path is a directory (`EISDIR`) or unreadable (`EACCES`)
takes the 500 branch instead. -/
theorem c2_enoent_yields_not_found (fsys : Fs) (dirname : String)
    (req : Request)
    (h : fsys (filePath dirname req.url) = ReadResult.error "ENOENT") :
    (handle fsys dirname req).status = 404
    ∧ contentTypeHeader (handle fsys dirname req) = some "text/html"
    ∧ (handle fsys dirname req).body =
        Body.text "<h1>404: File not found</h1>" := by
  rw [handle_eq_respond, h]
  exact ⟨rfl, rfl, rfl⟩

/-- Witness for C2 (amended) at a filesystem with no entries at all. -/
theorem c2_enoent_yields_not_found_witness :
    (handle (fun _ => ReadResult.error "ENOENT") "/app"
        { method := "GET", url := "/missing.txt" }).status = 404
    ∧ contentTypeHeader (handle (fun _ => ReadResult.error "ENOENT") "/app"
        { method := "GET", url := "/missing.txt" }) = some "text/html"
    ∧ (handle (fun _ => ReadResult.error "ENOENT") "/app"
        { method := "GET", url := "/missing.txt" }).body =
        Body.text "<h1>404: File not found</h1>" :=
  c2_enoent_yields_not_found (fun _ => ReadResult.error "ENOENT") "/app"
    { method := "GET", url := "/missing.txt" } rfl

/-- C6, counterexample: the 500 branch calls `res.writeHead(500)` with no
header object, so the 500 response of a permission-denied read carries no
`Content-Type` header, against the claim that every response carries
one. -/
theorem c6_counterexample_500_lacks_content_type :
    (handle (fun _ => ReadResult.error "EACCES") "/app"
        { method := "GET", url := "/a.html" }).status = 500
    ∧ contentTypeHeader (handle (fun _ => ReadResult.error "EACCES") "/app"
        { method := "GET", url := "/a.html" }) = none :=
  ⟨rfl, rfl⟩

/-- C6, amended: for every read failure whose code is not `ENOENT`, the
response has status 500 and a body embedding the error code in the
diagnostic `Server Error: <code>`, but it carries no `Content-Type`
header. -/
theorem c6_server_error_diagnostic (fsys : Fs) (dirname : String)
    (req : Request) (code : String)
    (h : fsys (filePath dirname req.url) = ReadResult.error code)
    (hne : code ≠ "ENOENT") :
    (handle fsys dirname req).status = 500
    ∧ (handle fsys dirname req).body = Body.text ("Server Error: " ++ code)
    ∧ contentTypeHeader (handle fsys dirname req) = none := by
  rw [handle_eq_respond, h]
  simp [respond, contentTypeHeader, hne]

/-- Witness for C6 (amended) at a filesystem failing with `EACCES`. -/
theorem c6_server_error_diagnostic_witness :
    (handle (fun _ => ReadResult.error "EACCES") "/app"
        { method := "GET", url := "/b.png" }).status = 500
    ∧ (handle (fun _ => ReadResult.error "EACCES") "/app"
        { method := "GET", url := "/b.png" }).body =
        Body.text ("Server Error: " ++ "EACCES")
    ∧ contentTypeHeader (handle (fun _ => ReadResult.error "EACCES") "/app"
        { method := "GET", url := "/b.png" }) = none :=
  c6_server_error_diagnostic (fun _ => ReadResult.error "EACCES") "/app"
    { method := "GET", url := "/b.png" } "EACCES" rfl (by decide)

lemma respond_outcome_unique (ct : String) (res : ReadResult) :
    ∃! o : Outcome, outcomeMatches (respond ct res) o := by
  cases res with
  | ok content =>
    refine ⟨Outcome.served, rfl, ?_⟩
    intro o ho
    cases o <;> simp_all [respond, outcomeMatches]
  | error code =>
    by_cases hc : code = "ENOENT"
    · refine ⟨Outcome.notFound, by simp [respond, outcomeMatches, hc], ?_⟩
      intro o ho
      cases o <;> simp_all [respond, outcomeMatches]
    · refine ⟨Outcome.serverError, by simp [respond, outcomeMatches, hc], ?_⟩
      intro o ho
      cases o <;> simp_all [respond, outcomeMatches]

/-- C7: the handler is a total function from requests to single complete
responses, and each response belongs to exactly one of the terminal
outcome classes `Served(200)`, `NotFound(404)`, `ServerError(500)`,
`Rejected(400/403)`. -/
theorem c7_exactly_one_outcome (fsys : Fs) (dirname : String)
    (req : Request) :
    ∃! o : Outcome, outcomeMatches (handle fsys dirname req) o :=
  respond_outcome_unique _ _

lemma splitSegsAux_append (ys : List Char) :
    ∀ (xs : List Char) (cur : List Char),
      splitSegsAux cur (xs ++ '/' :: ys) =
        splitSegsAux cur xs ++ splitSegsAux [] ys := by
  intro xs
  induction xs with
  | nil =>
    intro cur
    simp [splitSegsAux]
  | cons c cs ih =>
    intro cur
    by_cases hc : c = '/'
    · subst hc
      simp [splitSegsAux, ih]
    · simp only [List.cons_append, splitSegsAux, if_neg hc]
      exact ih (c :: cur)

lemma normStep_empty (allow : Bool) (acc : List String) :
    normStep allow acc "" = acc := by
  simp [normStep]

lemma normSegs_skip_empty (allow : Bool) (s t : List String) :
    normSegs allow (s ++ "" :: t) = normSegs allow (s ++ t) := by
  unfold normSegs
  rw [List.foldl_append, List.foldl_append, List.foldl_cons, normStep_empty]

lemma toList_ne_nil (s : String) (h : s ≠ "") : s.toList ≠ [] := by
  intro hl
  exact h (String.ext hl)

lemma pathNormalizeChars_double_slash (rl : List Char) (h : rl ≠ []) :
    pathNormalizeChars (rl ++ '/' :: "index.html".toList) =
      pathNormalizeChars (rl ++ '/' :: '/' :: "index.html".toList) := by
  obtain ⟨c, cs, rfl⟩ := List.exists_cons_of_ne_nil h
  have hh1 : ((c :: cs) ++ '/' :: "index.html".toList).head? = some c := by simp
  have hh2 : ((c :: cs) ++ '/' :: '/' :: "index.html".toList).head? = some c := by
    simp
  have hg1 : ((c :: cs) ++ '/' :: "index.html".toList).getLast? = some 'l' := by
    rw [List.getLast?_append]
    rfl
  have hg2 : ((c :: cs) ++ '/' :: '/' :: "index.html".toList).getLast? =
      some 'l' := by
    rw [List.getLast?_append]
    rfl
  have hs1 : splitSegs ((c :: cs) ++ '/' :: "index.html".toList) =
      splitSegsAux [] (c :: cs) ++ ["index.html"] := by
    unfold splitSegs
    rw [splitSegsAux_append,
      show splitSegsAux [] "index.html".toList = ["index.html"] from by decide]
  have hs2 : splitSegs ((c :: cs) ++ '/' :: '/' :: "index.html".toList) =
      splitSegsAux [] (c :: cs) ++ ("" :: ["index.html"]) := by
    unfold splitSegs
    rw [splitSegsAux_append,
      show splitSegsAux [] ('/' :: "index.html".toList) = ["", "index.html"]
        from by decide]
  simp only [pathNormalizeChars]
  rw [if_neg (by simp), if_neg (by simp)]
  rw [hh1, hh2, hg1, hg2, hs1, hs2, normSegs_skip_empty]

lemma pathJoin_index_slash (root : String) (h : root ≠ "") :
    pathJoin root "index.html" = pathJoin root "/index.html" := by
  have h1 : ("index.html" : String) ≠ "" := by decide
  have h2 : ("/index.html" : String) ≠ "" := by decide
  unfold pathJoin
  rw [if_neg h, if_neg h1, if_neg h, if_neg h2]
  unfold pathNormalize
  have t1 : (root ++ "/" ++ "index.html").toList =
      root.toList ++ '/' :: "index.html".toList := by
    show (root ++ "/" ++ "index.html").data = root.data ++ '/' :: "index.html".data
    rw [String.data_append, String.data_append]
    simp
  have t2 : (root ++ "/" ++ "/index.html").toList =
      root.toList ++ '/' :: '/' :: "index.html".toList := by
    show (root ++ "/" ++ "/index.html").data =
      root.data ++ '/' :: '/' :: "index.html".data
    rw [String.data_append, String.data_append]
    simp
  rw [t1, t2]
  exact pathNormalizeChars_double_slash root.toList (toList_ne_nil root h)

/-- C8: with a nonempty root whose `index.html` exists, the request for `/`
and the request for `/index.html` resolve to the same filesystem path and
receive identical responses (status, headers and body), whatever their
methods. -/
theorem c8_root_same_as_index (fsys : Fs) (root : String) (content : List Nat)
    (m m2 : String) (hroot : root ≠ "")
    (_hexists : fsys (pathJoin root "index.html") = ReadResult.ok content) :
    handle fsys root { method := m, url := "/" } =
      handle fsys root { method := m2, url := "/index.html" } := by
  have hfp : filePath root "/" = filePath root "/index.html" := by
    unfold filePath
    rw [if_pos rfl, if_neg (by decide : ("/index.html" : String) ≠ "/")]
    exact pathJoin_index_slash root hroot
  rw [handle_eq_respond, handle_eq_respond]
  rw [show ({ method := m, url := "/" } : Request).url = "/" from rfl]
  rw [show ({ method := m2, url := "/index.html" } : Request).url =
    "/index.html" from rfl]
  rw [hfp]

/-- Witness for C8: root `/app` with `index.html` holding the bytes of
`<p>`, requested once as `GET /` and once as `POST /index.html`. -/
theorem c8_root_same_as_index_witness :
    handle
      (fun p => if p = "/app/index.html" then ReadResult.ok [60, 112, 62]
                else ReadResult.error "ENOENT") "/app"
      { method := "GET", url := "/" } =
    handle
      (fun p => if p = "/app/index.html" then ReadResult.ok [60, 112, 62]
                else ReadResult.error "ENOENT") "/app"
      { method := "POST", url := "/index.html" } :=
  c8_root_same_as_index
    (fun p => if p = "/app/index.html" then ReadResult.ok [60, 112, 62]
              else ReadResult.error "ENOENT")
    "/app" [60, 112, 62] "GET" "POST" (by decide) (by decide)
